import Mathlib

/-!
Verification development for the startupjs repository.

Part 1 embeds `packages/server/server/app/resourceManager.js`:
the memoized `getResourcePath`, `getHash` and `getProductionStyles`
functions.  The process environment, the filesystem and the module-level
mutable state (the `PROJECT_PATH` variable and the three lodash memoize
caches) are made explicit.  lodash `memoize` with no resolver keys the
cache on the FIRST argument only, and never caches a thrown error; both
facts are reflected in the state-passing embeddings below.

Part 2 embeds the client bootstrap `init` function (the default export of
the React-Native client entry file): base-URL resolution, the channel
options written to `globalThis.__startupjsChannelOptions`, and the
decision to invoke `connectModel`.
-/

/-- JS `a || b` on an optional string: the empty string is falsy. -/
def jsOr : Option String → String → String
  | none, d => d
  | some s, d => if s = "" then d else s

/-- JS truthiness of an optional string value. -/
def jsTruthy : Option String → Bool
  | none => false
  | some s => s ≠ ""

/-- JS string coercion used by `+` : `undefined` prints as "undefined". -/
def jsStr : Option String → String
  | none => "undefined"
  | some s => s

/-- The single-quote character, used inside the error messages of the source. -/
def sqc : String := String.mk [Char.ofNat 39]

/-- The process environment variables read by resourceManager.js
(`process.env.*`) together with the working directory `process.cwd()`. -/
structure Env where
  NODE_ENV : Option String := none
  PROJECT_PATH : Option String := none
  BUILD_CLIENT_PATH : Option String := none
  DEVSERVER_URL : Option String := none
  DEV_PORT : Option String := none
  cwd : String := "/"

/-- The `options` argument object of the resourceManager functions.
Absent fields are `none`; JS falsiness of `""` is handled by `jsOr`. -/
structure Options where
  BUILD_REFERENCE_URL : Option String := none
  DEV_PORT : Option String := none
  PROJECT_PATH : Option String := none
deriving DecidableEq

/-- The filesystem: `manifest p` is the parsed JSON of the file at path `p`
when `require(p)` succeeds (an association list from app name to the `js`
field of its entry), `styleFiles p` the contents of the css file at `p`. -/
structure FS where
  manifest : String → Option (List (String × String))
  styleFiles : String → Option String

/-- The module-level mutable state of resourceManager.js: the
reassignable `PROJECT_PATH` variable and the three memoize caches
(`getResourcePath` keyed on the JSON-serialized argument list,
`getHash` and `getProductionStyles` keyed on their first argument).
lodash never caches a thrown error, so the caches store only
successfully returned values. -/
structure RMState where
  projectPath : String
  hashCache : List (String × Option String)
  pathCache : List (String × String)
  gpsCache : List (String × Option String)

/-- The state at module load: `PROJECT_PATH = process.env.PROJECT_PATH ||
process.cwd()`, all caches empty. -/
def initState (env : Env) : RMState :=
  { projectPath := jsOr env.PROJECT_PATH env.cwd
    hashCache := []
    pathCache := []
    gpsCache := [] }

/-- The constant read from the BUILD_CLIENT_PATH environment variable,
defaulting to /build/client/ when unset or empty. -/
def bcpOf (env : Env) : String := jsOr env.BUILD_CLIENT_PATH "/build/client/"

/-- First-match lookup in an association list (JS object property access,
lodash MapCache lookup). -/
def lookupStr {α : Type} : List (String × α) → String → Option α
  | [], _ => none
  | (k2, v) :: rest, k => if k2 = k then some v else lookupStr rest k

/-- Node `path.join` of two segments (restricted to the shapes occurring
here: joins with a single separator). -/
def pathJoin (a b : String) : String :=
  let as2 := if a.data.getLast? = some (Char.ofNat 47) then a.data.dropLast else a.data
  let bs2 := if b.data.head? = some (Char.ofNat 47) then b.data else Char.ofNat 47 :: b.data
  String.mk (as2 ++ bs2)

/-- The manifest location: path.join of the project path, the build
client path and assets.json. -/
def assetsMetaPath (pp bcp : String) : String :=
  pathJoin (pathJoin pp bcp) "assets.json"

/-- The regex `\.([^.]+)\.js$` applied to the reversed character list of a
filename: the list must start with the reversal of ".js", followed by a
nonempty dot-free captured group, followed by a dot. -/
def extractHashCore : List Char → Option String
  | 's' :: 'j' :: '.' :: rest =>
    let x := rest.takeWhile (fun c => c ≠ '.')
    if x.isEmpty then none
    else
      match rest.dropWhile (fun c => c ≠ '.') with
      | '.' :: _ => some (String.mk x.reverse)
      | _ => none
  | _ => none

/-- `filename.match(/\.([^.]+)\.js$/)`, returning the captured hash group. -/
def extractHash (s : String) : Option String :=
  extractHashCore s.data.reverse

/-- The error message thrown when the manifest has no usable entry for
the appName (the quotes around the appName come from `sqc`). -/
def noHashFoundMsg (appName type metaPath : String) : String :=
  "No hash found for " ++ sqc ++ appName ++ sqc ++ " " ++ type ++ " in " ++ metaPath

/-- The malformed-filename error message of `getHash`. -/
def formatMsg : String :=
  "No hash in bundle filename. Filename should be in the following format: "
    ++ sqc ++ "[name].[hash].js" ++ sqc

/-- The body of `getHash` after the production / empty-appName guards and
the `PROJECT_PATH` update: load the manifest (throwing when `require`
fails), then switch on the hash type. -/
def getHashCore (env : Env) (fs : FS) (appName type : String) (pp2 : String) :
    Except String (Option String) :=
  let metaPath := assetsMetaPath pp2 (bcpOf env)
  match fs.manifest metaPath with
  | none => .error ("Error loading assets meta file at: " ++ metaPath)
  | some assetsMeta =>
    if type = "bundle" then
      match lookupStr assetsMeta appName with
      | none => .error (noHashFoundMsg appName type metaPath)
      | some f =>
        if f = "" then .error (noHashFoundMsg appName type metaPath)
        else
          match extractHash f with
          | none => .error formatMsg
          | some h => .ok (some h)
    else .error ("No hash exists for assets of type " ++ sqc ++ type ++ sqc)

/-- The un-memoized body of `getHash(appName, type, options)`.  `pp` is the
current value of the module variable `PROJECT_PATH`; the second component
of the result is its value afterwards (the assignment `PROJECT_PATH =
options.PROJECT_PATH || PROJECT_PATH` happens before any throw).  In
non-production mode it returns `undefined` (here `none`); for a falsy
`appName` it returns the empty string. -/
def getHashRaw (env : Env) (fs : FS) (appName type : String) (opts : Options)
    (pp : String) : Except String (Option String) × String :=
  if env.NODE_ENV = some "production" then
    if appName = "" then (.ok (some ""), pp)
    else
      let pp2 := jsOr opts.PROJECT_PATH pp
      (getHashCore env fs appName type pp2, pp2)
  else (.ok none, pp)

/-- The exported, memoized `getHash`: lodash `memoize` with the default
resolver, so the cache key is the FIRST argument `appName` only.  A cache
hit returns the stored value without running the body; a successful miss
stores its result; a throw stores nothing (but the `PROJECT_PATH`
assignment it already performed persists). -/
def getHashM (env : Env) (fs : FS) (appName type : String) (opts : Options)
    (st : RMState) : Except String (Option String) × RMState :=
  match lookupStr st.hashCache appName with
  | some v => (.ok v, st)
  | none =>
    match getHashRaw env fs appName type opts st.projectPath with
    | (.ok v, pp2) =>
      (.ok v, { st with projectPath := pp2, hashCache := (appName, v) :: st.hashCache })
    | (.error e, pp2) => (.error e, { st with projectPath := pp2 })

/-- JSON string literal (escaping is irrelevant for the keys arising here). -/
def qstr (s : String) : String := "\"" ++ s ++ "\""

/-- `JSON.stringify` of the options object: present fields in declaration
order, absent (`undefined`) fields omitted. -/
def serializeOptions (o : Options) : String :=
  "\x7b" ++ String.intercalate ","
    ((match o.BUILD_REFERENCE_URL with
      | none => []
      | some s => [qstr "BUILD_REFERENCE_URL" ++ ":" ++ qstr s]) ++
     (match o.DEV_PORT with
      | none => []
      | some s => [qstr "DEV_PORT" ++ ":" ++ qstr s]) ++
     (match o.PROJECT_PATH with
      | none => []
      | some s => [qstr "PROJECT_PATH" ++ ":" ++ qstr s])) ++ "\x7d"

/-- The memoize resolver of `getResourcePath`: `(...args) =>
JSON.stringify(args)`.  `opts = none` models a call that omitted the
third argument (the serialized argument list is then shorter). -/
def serializeArgs (type appName : String) (opts : Option Options) : String :=
  "[" ++ qstr type ++ "," ++ qstr appName ++
    (match opts with
     | none => ""
     | some o => "," ++ serializeOptions o) ++ "]"

/-- The un-memoized body of `getResourcePath(type, appName, options)`:
switch on the type; for `bundle` in production prepend
`options.BUILD_REFERENCE_URL || ''` and append a dot plus the hash from
the (memoized) `getHash`; for `bundle` otherwise use the development
server prefix; for `style` a static path; otherwise throw. -/
def getResourcePathRaw (env : Env) (fs : FS) (type appName : String)
    (opts : Options) (st : RMState) : Except String String × RMState :=
  if type = "bundle" then
    if env.NODE_ENV = some "production" then
      match getHashM env fs appName type opts st with
      | (.ok h, st2) =>
        (.ok (jsOr opts.BUILD_REFERENCE_URL "" ++ bcpOf env ++ appName
          ++ ("." ++ jsStr h) ++ ".js"), st2)
      | (.error e, st2) => (.error e, st2)
    else
      let pre := jsOr env.DEVSERVER_URL
        ("http://localhost:" ++ jsOr opts.DEV_PORT (jsOr env.DEV_PORT "3010"))
      (.ok (pre ++ bcpOf env ++ appName ++ ".js"), st)
  else if type = "style" then
    (.ok (bcpOf env ++ appName ++ ".css"), st)
  else
    (.error ("No resource found for " ++ sqc ++ type ++ sqc), st)

/-- The exported, memoized `getResourcePath`: cache keyed on the
JSON-serialized argument list; a missing `options` argument defaults to
`{}` inside the body but serializes as a two-element argument list. -/
def getResourcePathM (env : Env) (fs : FS) (type appName : String)
    (opts : Option Options) (st : RMState) : Except String String × RMState :=
  let key := serializeArgs type appName opts
  match lookupStr st.pathCache key with
  | some v => (.ok v, st)
  | none =>
    match getResourcePathRaw env fs type appName (opts.getD {}) st with
    | (.ok v, st2) => (.ok v, { st2 with pathCache := (key, v) :: st2.pathCache })
    | (.error e, st2) => (.error e, st2)

/-- The un-memoized body of `getProductionStyles(appName, options)`:
update `PROJECT_PATH`, resolve the style path through the memoized
`getResourcePath`, then read the stylesheet; returns `undefined` (here
`none`) when the file does not exist. -/
def getProductionStylesRaw (env : Env) (fs : FS) (appName : String)
    (opts : Options) (st : RMState) : Except String (Option String) × RMState :=
  let pp2 := jsOr opts.PROJECT_PATH st.projectPath
  let st2 := { st with projectPath := pp2 }
  match getResourcePathM env fs "style" appName (some opts) st2 with
  | (.error e, st3) => (.error e, st3)
  | (.ok styleRelPath, st3) =>
    let stylePath := pathJoin st3.projectPath styleRelPath
    match fs.styleFiles stylePath with
    | none => (.ok none, st3)
    | some style => (.ok (some ("<style>" ++ style ++ "</style>")), st3)

/-- The exported, memoized `getProductionStyles`: lodash memoize with the
default resolver, keyed on `appName` only. -/
def getProductionStylesM (env : Env) (fs : FS) (appName : String)
    (opts : Options) (st : RMState) : Except String (Option String) × RMState :=
  match lookupStr st.gpsCache appName with
  | some v => (.ok v, st)
  | none =>
    match getProductionStylesRaw env fs appName opts st with
    | (.ok v, st2) => (.ok v, { st2 with gpsCache := (appName, v) :: st2.gpsCache })
    | (.error e, st2) => (.error e, st2)

/-- The platform detection constants imported by the client entry file
(`isWeb`, `isExpo`, `isDevelopment`) and the platform default base URL
(`DEFAULT_BASE_URL` from the BASE_URL util). -/
structure Platform where
  isWeb : Bool
  isExpo : Bool
  isDevelopment : Bool
  defaultBaseUrl : String

/-- The fields of `MODULE.options` (the global module configuration of the
registry) read by the client `init`. -/
structure ModuleOptions where
  baseUrl : Option String := none
  enableXhrFallback : Option Bool := none
  enableServer : Bool := false
  enableConnection : Bool := false

/-- The `options` argument of the client `init` (only the field the
embedded logic reads). -/
structure ClientOptions where
  baseUrl : Option String := none

/-- The observable effects of one run of the client `init`: the channel
options written to `globalThis.__startupjsChannelOptions`, the axios
default base URL, whether the missing-baseUrl warning was printed, and
whether `connectModel` was invoked. -/
structure InitResult where
  channelBaseUrl : String
  forceXhrFallback : Bool
  axiosBaseURL : String
  warned : Bool
  connectModelCalled : Bool

/-- The client bootstrap `init` (default export of the RN client entry):
`options.baseUrl ??= MODULE.options.baseUrl`; remember whether a truthy
explicit baseUrl existed; on web force the platform default; if still
falsy warn (outside web / expo-dev) and fall back to the default; write
the channel options; invoke `connectModel` iff `MODULE.options.enableServer
|| MODULE.options.enableConnection`. -/
def initClient (pf : Platform) (mod : ModuleOptions) (opts : ClientOptions) :
    InitResult :=
  let b0 := match opts.baseUrl with
    | none => mod.baseUrl
    | some s => some s
  let hasExplicitBaseUrl := jsTruthy b0
  let b1 := if pf.isWeb then some pf.defaultBaseUrl else b0
  let warned := !jsTruthy b1 && !(pf.isWeb || (pf.isExpo && pf.isDevelopment))
  let baseUrl := jsOr b1 pf.defaultBaseUrl
  { channelBaseUrl := baseUrl
    forceXhrFallback := (mod.enableXhrFallback != some false) &&
      (pf.isDevelopment || (pf.isExpo && !pf.isWeb && !hasExplicitBaseUrl))
    axiosBaseURL := baseUrl
    warned := warned
    connectModelCalled := mod.enableServer || mod.enableConnection }


/-- `a || (a || d) = a || d`: reassigning `PROJECT_PATH = options.PROJECT_PATH
|| PROJECT_PATH` a second time with the same options is a no-op. -/
theorem jsOr_idem (o : Option String) (d : String) : jsOr o (jsOr o d) = jsOr o d := by
  cases o with
  | none => rfl
  | some s =>
    by_cases h : s = "" <;> simp [jsOr, h]

/-- Running the raw `getHash` body a second time from the `PROJECT_PATH`
it produced gives the same result and the same `PROJECT_PATH`. -/
theorem getHashRaw_stable (env : Env) (fs : FS) (appName type : String)
    (opts : Options) (pp : String) :
    getHashRaw env fs appName type opts (getHashRaw env fs appName type opts pp).2
      = getHashRaw env fs appName type opts pp := by
  by_cases h1 : env.NODE_ENV = some "production"
  · by_cases h2 : appName = ""
    · simp [getHashRaw, h1, h2]
    · simp [getHashRaw, h1, h2, jsOr_idem]
  · simp [getHashRaw, h1]

/-- `getHashRaw` leaves `PROJECT_PATH` alone or sets it to
`options.PROJECT_PATH || PROJECT_PATH`. -/
theorem getHashRaw_snd (env : Env) (fs : FS) (appName type : String)
    (opts : Options) (pp : String) :
    (getHashRaw env fs appName type opts pp).2 = pp ∨
    (getHashRaw env fs appName type opts pp).2 = jsOr opts.PROJECT_PATH pp := by
  by_cases h1 : env.NODE_ENV = some "production"
  · by_cases h2 : appName = ""
    · left; simp [getHashRaw, h1, h2]
    · right; simp [getHashRaw, h1, h2]
  · left; simp [getHashRaw, h1]

/-- The head of a freshly consed cache entry is found. -/
theorem lookupStr_cons_self {α : Type} (l : List (String × α)) (k : String) (v : α) :
    lookupStr ((k, v) :: l) k = some v := by
  simp [lookupStr]

/-- The memoized `getHash` is idempotent as a state transformer: a second
call with the same arguments returns the same value and leaves the state
unchanged (the second call is a cache hit whenever the first returned, and
recomputes to the same error otherwise). -/
theorem getHashM_stable (env : Env) (fs : FS) (appName type : String)
    (opts : Options) (st : RMState) :
    getHashM env fs appName type opts (getHashM env fs appName type opts st).2
      = getHashM env fs appName type opts st := by
  match hl : lookupStr st.hashCache appName with
  | some v => simp [getHashM, hl]
  | none =>
    match hr : getHashRaw env fs appName type opts st.projectPath with
    | (.ok v, pp2) =>
      simp [getHashM, hl, hr, lookupStr_cons_self]
    | (.error e, pp2) =>
      have hs := getHashRaw_stable env fs appName type opts st.projectPath
      rw [hr] at hs
      simp [getHashM, hl, hr, hs]

/-- The memoized `getHash` never touches the `getResourcePath` cache. -/
theorem getHashM_pathCache (env : Env) (fs : FS) (appName type : String)
    (opts : Options) (st : RMState) :
    (getHashM env fs appName type opts st).2.pathCache = st.pathCache := by
  match hl : lookupStr st.hashCache appName with
  | some v => simp [getHashM, hl]
  | none =>
    match hr : getHashRaw env fs appName type opts st.projectPath with
    | (.ok v, pp2) => simp [getHashM, hl, hr]
    | (.error e, pp2) => simp [getHashM, hl, hr]

/-- The raw `getResourcePath` body never touches its own cache. -/
theorem getResourcePathRaw_pathCache (env : Env) (fs : FS) (type appName : String)
    (opts : Options) (st : RMState) :
    (getResourcePathRaw env fs type appName opts st).2.pathCache = st.pathCache := by
  by_cases h1 : type = "bundle"
  · subst h1
    by_cases h2 : env.NODE_ENV = some "production"
    · match hm : getHashM env fs appName "bundle" opts st with
      | (.ok h, st2) =>
        have := getHashM_pathCache env fs appName "bundle" opts st
        rw [hm] at this
        simp at this
        simp [getResourcePathRaw, h2, hm, this]
      | (.error e, st2) =>
        have := getHashM_pathCache env fs appName "bundle" opts st
        rw [hm] at this
        simp at this
        simp [getResourcePathRaw, h2, hm, this]
    · simp [getResourcePathRaw, h2]
  · by_cases h3 : type = "style" <;> simp [getResourcePathRaw, h1, h3]

/-- Running the raw `getResourcePath` body a second time from the state it
produced gives the same result and the same state. -/
theorem getResourcePathRaw_stable (env : Env) (fs : FS) (type appName : String)
    (opts : Options) (st : RMState) :
    getResourcePathRaw env fs type appName opts (getResourcePathRaw env fs type appName opts st).2
      = getResourcePathRaw env fs type appName opts st := by
  by_cases h1 : type = "bundle"
  · subst h1
    by_cases h2 : env.NODE_ENV = some "production"
    · match hm : getHashM env fs appName "bundle" opts st with
      | (.ok h, st2) =>
        have hs := getHashM_stable env fs appName "bundle" opts st
        rw [hm] at hs
        simp [getResourcePathRaw, h2, hm, hs]
      | (.error e, st2) =>
        have hs := getHashM_stable env fs appName "bundle" opts st
        rw [hm] at hs
        simp [getResourcePathRaw, h2, hm, hs]
    · simp [getResourcePathRaw, h2]
  · by_cases h3 : type = "style" <;> simp [getResourcePathRaw, h1, h3]

/-- C1: For every type, appName and options, under a fixed process
environment and filesystem, a repeated call to `getResourcePath` with
equal arguments returns the identical result as the first call and leaves
the module state unchanged; memoization is keyed on the serialized
argument tuple, so whenever the first call returned a URL, that URL is in
the cache under the serialized key (the repeat call is answered from the
cache without recomputation). -/
theorem getResourcePath_memoized (env : Env) (fs : FS) (type appName : String)
    (opts : Option Options) (st : RMState) :
    getResourcePathM env fs type appName opts
        (getResourcePathM env fs type appName opts st).2
      = getResourcePathM env fs type appName opts st
    ∧ ∀ v, (getResourcePathM env fs type appName opts st).1 = .ok v →
        lookupStr (getResourcePathM env fs type appName opts st).2.pathCache
          (serializeArgs type appName opts) = some v := by
  match hl : lookupStr st.pathCache (serializeArgs type appName opts) with
  | some v =>
    constructor
    · simp [getResourcePathM, hl]
    · intro w hw
      simp [getResourcePathM, hl] at hw ⊢
      exact hw
  | none =>
    match hr : getResourcePathRaw env fs type appName (opts.getD {}) st with
    | (.ok v, st2) =>
      constructor
      · simp [getResourcePathM, hl, hr, lookupStr_cons_self]
      · intro w hw
        simp [getResourcePathM, hl, hr, lookupStr_cons_self] at hw ⊢
        exact hw
    | (.error e, st2) =>
      have hpc := getResourcePathRaw_pathCache env fs type appName (opts.getD {}) st
      rw [hr] at hpc
      simp at hpc
      have hs := getResourcePathRaw_stable env fs type appName (opts.getD {}) st
      rw [hr] at hs
      constructor
      · simp [getResourcePathM, hl, hr, hpc, hs]
      · intro w hw
        simp [getResourcePathM, hl, hr] at hw

/-- A production environment fixture (`NODE_ENV=production`,
`PROJECT_PATH=/p`). -/
def prodEnv : Env := { NODE_ENV := some "production", PROJECT_PATH := some "/p" }

/-- A development environment fixture. -/
def devEnv : Env := { NODE_ENV := some "development", PROJECT_PATH := some "/p" }

/-- A filesystem fixture: an assets manifest under `/p` (with a good entry,
a malformed entry and an empty-name entry), one under `/newproj`, and one
stylesheet under `/q`. -/
def exFS : FS :=
  { manifest := fun p =>
      if p = "/p/build/client/assets.json" then
        some [("app", "app.abc123.js"), ("bad", "badfile_js"), ("", "x.h.js")]
      else if p = "/newproj/build/client/assets.json" then
        some [("app2", "app2.beef.js")]
      else none
    styleFiles := fun p =>
      if p = "/q/build/client/app3.css" then some "body" else none }

/-- C1 witness: concrete instance of the memoization theorem — the second
identical call returns the first result with the state unchanged, and the
first URL sits in the cache under the serialized key. -/
theorem getResourcePath_memoized_witness :
    getResourcePathM devEnv exFS "style" "app" none
        (getResourcePathM devEnv exFS "style" "app" none (initState devEnv)).2
      = getResourcePathM devEnv exFS "style" "app" none (initState devEnv)
    ∧ lookupStr (getResourcePathM devEnv exFS "style" "app" none (initState devEnv)).2.pathCache
        (serializeArgs "style" "app" none) = some "/build/client/app.css" :=
  ⟨(getResourcePath_memoized devEnv exFS "style" "app" none (initState devEnv)).1,
   (getResourcePath_memoized devEnv exFS "style" "app" none (initState devEnv)).2
     "/build/client/app.css" rfl⟩

/-- C2: the bundle URL of `getResourcePath`.  In production it is the
reference-URL option (defaulting to empty) followed by the build client
path, the appName, a dot, the hash looked up via `getHash`, and .js;
outside production it is the DEVSERVER_URL (or http://localhost: plus the
configured dev port) followed by the build client path, the appName and
.js. -/
theorem getResourcePath_bundle_url (env : Env) (fs : FS) (appName : String)
    (opts : Options) (st : RMState) :
    (env.NODE_ENV = some "production" →
      lookupStr st.pathCache (serializeArgs "bundle" appName (some opts)) = none →
      ∀ h, (getHashM env fs appName "bundle" opts st).1 = .ok (some h) →
      (getResourcePathM env fs "bundle" appName (some opts) st).1
        = .ok (jsOr opts.BUILD_REFERENCE_URL "" ++ bcpOf env ++ appName
            ++ ("." ++ h) ++ ".js"))
    ∧ (env.NODE_ENV ≠ some "production" →
      lookupStr st.pathCache (serializeArgs "bundle" appName (some opts)) = none →
      (getResourcePathM env fs "bundle" appName (some opts) st).1
        = .ok (jsOr env.DEVSERVER_URL
            ("http://localhost:" ++ jsOr opts.DEV_PORT (jsOr env.DEV_PORT "3010"))
            ++ bcpOf env ++ appName ++ ".js")) := by
  constructor
  · intro hprod hkey h hh
    match hm : getHashM env fs appName "bundle" opts st with
    | (.ok v, st2) =>
      rw [hm] at hh
      simp at hh
      subst hh
      simp [getResourcePathM, hkey, getResourcePathRaw, hprod, hm, jsStr]
    | (.error e, st2) =>
      rw [hm] at hh
      simp at hh
  · intro hnp hkey
    simp [getResourcePathM, hkey, getResourcePathRaw, hnp]

/-- C2 witness: with the manifest mapping `app` to `app.abc123.js`, the
production bundle URL is `/build/client/app.abc123.js`; in development it
is `http://localhost:3010/build/client/app.js`. -/
theorem getResourcePath_bundle_url_witness :
    (getResourcePathM prodEnv exFS "bundle" "app" (some {}) (initState prodEnv)).1
      = .ok "/build/client/app.abc123.js"
    ∧ (getResourcePathM devEnv exFS "bundle" "app" (some {}) (initState devEnv)).1
      = .ok "http://localhost:3010/build/client/app.js" :=
  ⟨(getResourcePath_bundle_url prodEnv exFS "app" {} (initState prodEnv)).1
     rfl rfl "abc123" rfl,
   (getResourcePath_bundle_url devEnv exFS "app" {} (initState devEnv)).2
     (by decide) rfl⟩

/-- C3 counterexample: the claim quantifies over every appName, but for
the empty appName in production `getHash` returns the empty string before
ever consulting the manifest — even when the manifest maps the empty name
to `x.h.js`, whose embedded hash is `h`. -/
theorem getHash_empty_appName_counterexample :
    (getHashM prodEnv exFS "" "bundle" {} (initState prodEnv)).1 = .ok (some "")
    ∧ (getHashM prodEnv exFS "" "bundle" {} (initState prodEnv)).1 ≠ .ok (some "h")
    ∧ lookupStr [("app", "app.abc123.js"), ("bad", "badfile_js"), ("", "x.h.js")] "" = some "x.h.js"
    ∧ extractHash "x.h.js" = some "h" := by
  refine ⟨rfl, ?_, rfl, rfl⟩
  intro hcontra
  simp [getHashM, getHashRaw, lookupStr, initState, prodEnv, jsOr] at hcontra

/-- C3 (amended to non-empty appName): `getHash` for the bundle type with
options)` returns `undefined` outside production; in production, for a
non-empty appName, when the manifest at the resolved assets path maps
appName to a filename whose `name.hash.js` pattern match yields `h`, it
returns `h`. -/
theorem getHash_bundle_hash (env : Env) (fs : FS) (appName : String)
    (opts : Options) (st : RMState) :
    (env.NODE_ENV ≠ some "production" →
      lookupStr st.hashCache appName = none →
      (getHashM env fs appName "bundle" opts st).1 = .ok none)
    ∧ (∀ m f h, env.NODE_ENV = some "production" → appName ≠ "" →
      lookupStr st.hashCache appName = none →
      fs.manifest (assetsMetaPath (jsOr opts.PROJECT_PATH st.projectPath) (bcpOf env)) = some m →
      lookupStr m appName = some f →
      extractHash f = some h →
      (getHashM env fs appName "bundle" opts st).1 = .ok (some h)) := by
  constructor
  · intro hnp hkey
    simp [getHashM, hkey, getHashRaw, hnp]
  · intro m f h hprod hne hkey hfs hm hex
    have hf : f ≠ "" := by
      intro hcontra
      rw [hcontra] at hex
      have : extractHash "" = none := rfl
      rw [this] at hex
      exact Option.noConfusion hex
    simp [getHashM, hkey, getHashRaw, hprod, hne, getHashCore, hfs, hm, hf, hex]

/-- C3 witness: outside production the hash is `undefined`; in production
the manifest entry `app → app.abc123.js` yields the hash `abc123` (the
example given in the spec). -/
theorem getHash_bundle_hash_witness :
    (getHashM devEnv exFS "app" "bundle" {} (initState devEnv)).1 = .ok none
    ∧ (getHashM prodEnv exFS "app" "bundle" {} (initState prodEnv)).1 = .ok (some "abc123") :=
  ⟨(getHash_bundle_hash devEnv exFS "app" {} (initState devEnv)).1 (by decide) rfl,
   (getHash_bundle_hash prodEnv exFS "app" {} (initState prodEnv)).2
     [("app", "app.abc123.js"), ("bad", "badfile_js"), ("", "x.h.js")]
     "app.abc123.js" "abc123" rfl (by decide) rfl rfl rfl rfl⟩

/-- Whether the embedded computation threw. -/
def isError {ε α : Type} : Except ε α → Bool
  | .error _ => true
  | .ok _ => false

/-- C4: in production, for a non-empty uncached appName, `getHash` throws
(returns no value) on an unknown hash type, on a missing manifest file,
and on a recorded bundle filename the `name.hash.js` pattern match
rejects. -/
theorem getHash_fails_fast (env : Env) (fs : FS) (appName type : String)
    (opts : Options) (st : RMState)
    (hprod : env.NODE_ENV = some "production") (hne : appName ≠ "")
    (hkey : lookupStr st.hashCache appName = none) :
    (type ≠ "bundle" → isError (getHashM env fs appName type opts st).1 = true)
    ∧ (fs.manifest (assetsMetaPath (jsOr opts.PROJECT_PATH st.projectPath) (bcpOf env)) = none →
        isError (getHashM env fs appName type opts st).1 = true)
    ∧ (∀ m f, type = "bundle" →
        fs.manifest (assetsMetaPath (jsOr opts.PROJECT_PATH st.projectPath) (bcpOf env)) = some m →
        lookupStr m appName = some f →
        extractHash f = none →
        isError (getHashM env fs appName type opts st).1 = true) := by
  refine ⟨?_, ?_, ?_⟩
  · intro ht
    match hfs : fs.manifest (assetsMetaPath (jsOr opts.PROJECT_PATH st.projectPath) (bcpOf env)) with
    | none =>
      simp [getHashM, hkey, getHashRaw, hprod, hne, getHashCore, hfs, isError]
    | some m =>
      simp [getHashM, hkey, getHashRaw, hprod, hne, getHashCore, hfs, ht, isError]
  · intro hfs
    simp [getHashM, hkey, getHashRaw, hprod, hne, getHashCore, hfs, isError]
  · intro m f ht hfs hm hex
    by_cases hf : f = ""
    · simp [getHashM, hkey, getHashRaw, hprod, hne, getHashCore, hfs, ht, hm, hf, isError]
    · simp [getHashM, hkey, getHashRaw, hprod, hne, getHashCore, hfs, ht, hm, hf, hex, isError]

/-- C4 witness: concrete throws for the unknown hash type `style`, for a
manifest missing under `/missing`, and for the malformed recorded
filename `badfile_js`. -/
theorem getHash_fails_fast_witness :
    isError (getHashM prodEnv exFS "app" "style" {} (initState prodEnv)).1 = true
    ∧ isError (getHashM prodEnv exFS "app" "bundle"
        { PROJECT_PATH := some "/missing" } (initState prodEnv)).1 = true
    ∧ isError (getHashM prodEnv exFS "bad" "bundle" {} (initState prodEnv)).1 = true :=
  ⟨(getHash_fails_fast prodEnv exFS "app" "style" {} (initState prodEnv)
      rfl (by decide) rfl).1 (by decide),
   (getHash_fails_fast prodEnv exFS "app" "bundle" { PROJECT_PATH := some "/missing" }
      (initState prodEnv) rfl (by decide) rfl).2.1 rfl,
   (getHash_fails_fast prodEnv exFS "bad" "bundle" {} (initState prodEnv)
      rfl (by decide) rfl).2.2 [("app", "app.abc123.js"), ("bad", "badfile_js"), ("", "x.h.js")]
      "badfile_js" rfl rfl rfl rfl⟩

/-- C5: in every environment, `getResourcePath` for the style type (with
or without an options argument) returns the build client path followed by
the appName and .css, never throws, and neither consults the manifest nor
touches `PROJECT_PATH`. -/
theorem getResourcePath_style_static (env : Env) (fs : FS) (appName : String)
    (opts : Option Options) (st : RMState)
    (hkey : lookupStr st.pathCache (serializeArgs "style" appName opts) = none) :
    (getResourcePathM env fs "style" appName opts st).1
      = .ok (bcpOf env ++ appName ++ ".css")
    ∧ (getResourcePathM env fs "style" appName opts st).2.hashCache = st.hashCache
    ∧ (getResourcePathM env fs "style" appName opts st).2.projectPath = st.projectPath := by
  refine ⟨?_, ?_, ?_⟩ <;> simp [getResourcePathM, hkey, getResourcePathRaw]

/-- C5 witness: under a production environment the style URL is the static
`/build/client/app.css`, with hash cache and `PROJECT_PATH` untouched. -/
theorem getResourcePath_style_static_witness :
    (getResourcePathM prodEnv exFS "style" "app" none (initState prodEnv)).1
      = .ok "/build/client/app.css"
    ∧ (getResourcePathM prodEnv exFS "style" "app" none (initState prodEnv)).2.hashCache
      = (initState prodEnv).hashCache
    ∧ (getResourcePathM prodEnv exFS "style" "app" none (initState prodEnv)).2.projectPath
      = (initState prodEnv).projectPath :=
  getResourcePath_style_static prodEnv exFS "app" none (initState prodEnv) rfl

/-- C6: for any type other than `bundle` and `style`, `getResourcePath`
throws the no-resource-found error instead of returning a URL. -/
theorem getResourcePath_unknown_type (env : Env) (fs : FS) (type appName : String)
    (opts : Option Options) (st : RMState)
    (ht1 : type ≠ "bundle") (ht2 : type ≠ "style")
    (hkey : lookupStr st.pathCache (serializeArgs type appName opts) = none) :
    (getResourcePathM env fs type appName opts st).1
      = .error ("No resource found for " ++ sqc ++ type ++ sqc) := by
  simp [getResourcePathM, hkey, getResourcePathRaw, ht1, ht2]

/-- C6 witness: the unknown type `img` throws. -/
theorem getResourcePath_unknown_type_witness :
    (getResourcePathM prodEnv exFS "img" "app" none (initState prodEnv)).1
      = .error ("No resource found for " ++ sqc ++ "img" ++ sqc) :=
  getResourcePath_unknown_type prodEnv exFS "img" "app" none (initState prodEnv)
    (by decide) (by decide) rfl

/-- C7: the client bootstrap resolves the base URL with precedence
explicit option > module configuration > platform default, and on web the
platform default is forced; in particular with no explicit baseUrl in a
browser context the channel options hold the platform default. -/
theorem initClient_baseUrl_precedence (pf : Platform) (mod : ModuleOptions)
    (opts : ClientOptions) :
    (pf.isWeb = true → (initClient pf mod opts).channelBaseUrl = pf.defaultBaseUrl)
    ∧ (∀ s, pf.isWeb = false → opts.baseUrl = some s → s ≠ "" →
        (initClient pf mod opts).channelBaseUrl = s)
    ∧ (∀ m, pf.isWeb = false → opts.baseUrl = none → mod.baseUrl = some m → m ≠ "" →
        (initClient pf mod opts).channelBaseUrl = m)
    ∧ (opts.baseUrl = none → jsTruthy mod.baseUrl = false →
        (initClient pf mod opts).channelBaseUrl = pf.defaultBaseUrl) := by
  refine ⟨?_, ?_, ?_, ?_⟩
  · intro hw
    simp [initClient, hw, jsOr]
  · intro s hw hopt hs
    simp [initClient, hw, hopt, jsOr, hs]
  · intro m hw hopt hmod hm
    simp [initClient, hw, hopt, hmod, jsOr, hm]
  · intro hopt hmod
    cases hw : pf.isWeb with
    | false =>
      cases hb : mod.baseUrl with
      | none => simp [initClient, hopt, hw, hb, jsOr]
      | some s =>
        rw [hb] at hmod
        simp [jsTruthy] at hmod
        simp [initClient, hopt, hw, hb, jsOr, hmod]
    | true => simp [initClient, hw, jsOr]

/-- A browser platform fixture. -/
def webPf : Platform :=
  { isWeb := true, isExpo := false, isDevelopment := false
    defaultBaseUrl := "http://localhost:3000" }

/-- A native (non-web) platform fixture. -/
def nativePf : Platform :=
  { isWeb := false, isExpo := true, isDevelopment := false
    defaultBaseUrl := "http://localhost:3000" }

/-- C7 witness: web forces the default; on native an explicit option wins,
then the module configuration, then the default. -/
theorem initClient_baseUrl_precedence_witness :
    (initClient webPf {} {}).channelBaseUrl = "http://localhost:3000"
    ∧ (initClient nativePf {} { baseUrl := some "https://x.example" }).channelBaseUrl
      = "https://x.example"
    ∧ (initClient nativePf { baseUrl := some "https://m.example" } {}).channelBaseUrl
      = "https://m.example"
    ∧ (initClient nativePf {} {}).channelBaseUrl = "http://localhost:3000" :=
  ⟨(initClient_baseUrl_precedence webPf {} {}).1 rfl,
   (initClient_baseUrl_precedence nativePf {} { baseUrl := some "https://x.example" }).2.1
     "https://x.example" rfl rfl (by decide),
   (initClient_baseUrl_precedence nativePf { baseUrl := some "https://m.example" } {}).2.2.1
     "https://m.example" rfl rfl rfl (by decide),
   (initClient_baseUrl_precedence nativePf {} {}).2.2.2 rfl rfl⟩

/-- C8: the client bootstrap invokes `connectModel` exactly when the
global module configuration enables the server or the connection. -/
theorem initClient_connect_iff_enabled (pf : Platform) (mod : ModuleOptions)
    (opts : ClientOptions) :
    (initClient pf mod opts).connectModelCalled
      = (mod.enableServer || mod.enableConnection) := rfl

/-- C9: `getHash` is memoized on its first argument only: once a call for
an appName has returned a value, a later call with the same appName — any
type, any options — returns that cached value and leaves the state
unchanged. -/
theorem getHash_memoized_first_arg (env : Env) (fs : FS) (appName t1 t2 : String)
    (o1 o2 : Options) (st : RMState) (v : Option String) (st1 : RMState)
    (h1 : getHashM env fs appName t1 o1 st = (.ok v, st1)) :
    getHashM env fs appName t2 o2 st1 = (.ok v, st1) := by
  have hlook : lookupStr st1.hashCache appName = some v := by
    match hl : lookupStr st.hashCache appName with
    | some w =>
      simp [getHashM, hl] at h1
      obtain ⟨hv, hst⟩ := h1
      subst hv
      subst hst
      exact hl
    | none =>
      match hr : getHashRaw env fs appName t1 o1 st.projectPath with
      | (.ok w, pp2) =>
        simp [getHashM, hl, hr] at h1
        obtain ⟨hv, hst⟩ := h1
        subst hv
        subst hst
        exact lookupStr_cons_self _ _ _
      | (.error e, pp2) =>
        simp [getHashM, hl, hr] at h1
  simp [getHashM, hlook]

/-- The state after a first production bundle `getHash` for `app`. -/
def c9State : RMState := (getHashM prodEnv exFS "app" "bundle" {} (initState prodEnv)).2

/-- C9 witness: after `getHash("app", "bundle")` cached `abc123`, the call
`getHash("app", "style")` returns the cached bundle hash instead of the
unknown-hash-type error. -/
theorem getHash_memoized_first_arg_witness :
    getHashM prodEnv exFS "app" "style" {} c9State = (.ok (some "abc123"), c9State) :=
  getHash_memoized_first_arg prodEnv exFS "app" "bundle" "style" {} {}
    (initState prodEnv) (some "abc123") c9State rfl

/-- `getHash` never touches the `getProductionStyles` cache. -/
theorem getHashM_gpsCache (env : Env) (fs : FS) (appName type : String)
    (opts : Options) (st : RMState) :
    (getHashM env fs appName type opts st).2.gpsCache = st.gpsCache := by
  match hl : lookupStr st.hashCache appName with
  | some v => simp [getHashM, hl]
  | none =>
    match hr : getHashRaw env fs appName type opts st.projectPath with
    | (.ok v, pp2) => simp [getHashM, hl, hr]
    | (.error e, pp2) => simp [getHashM, hl, hr]

/-- On a cache miss in production with a non-empty appName, `getHash`
leaves `PROJECT_PATH` at `options.PROJECT_PATH || PROJECT_PATH`. -/
theorem getHashM_miss_projectPath (env : Env) (fs : FS) (appName type : String)
    (opts : Options) (st : RMState)
    (hprod : env.NODE_ENV = some "production") (hne : appName ≠ "")
    (hkey : lookupStr st.hashCache appName = none) :
    (getHashM env fs appName type opts st).2.projectPath
      = jsOr opts.PROJECT_PATH st.projectPath := by
  match hcore : getHashCore env fs appName type (jsOr opts.PROJECT_PATH st.projectPath) with
  | .ok v => simp [getHashM, hkey, getHashRaw, hprod, hne, hcore]
  | .error e => simp [getHashM, hkey, getHashRaw, hprod, hne, hcore]

/-- A `getHash` call for one appName does not disturb the cache entry of
another. -/
theorem getHashM_hashCache_other (env : Env) (fs : FS) (a1 type : String)
    (opts : Options) (st : RMState) (a2 : String) (hne : a2 ≠ a1) :
    lookupStr (getHashM env fs a1 type opts st).2.hashCache a2
      = lookupStr st.hashCache a2 := by
  have hne2 : ¬ (a1 = a2) := fun hcontra => hne hcontra.symm
  match hl : lookupStr st.hashCache a1 with
  | some v => simp [getHashM, hl]
  | none =>
    match hr : getHashRaw env fs a1 type opts st.projectPath with
    | (.ok v, pp2) => simp [getHashM, hl, hr, lookupStr, hne2]
    | (.error e, pp2) => simp [getHashM, hl, hr]

/-- A successful regex match means the filename was not empty. -/
theorem extractHash_some_ne_empty {f h : String} (hex : extractHash f = some h) :
    f ≠ "" := by
  intro hcontra
  subst hcontra
  have hnone : extractHash "" = none := rfl
  rw [hnone] at hex
  exact Option.noConfusion hex

/-- `getResourcePath` for the style type never writes `PROJECT_PATH`. -/
theorem getResourcePathM_style_projectPath (env : Env) (fs : FS) (appName : String)
    (opts : Option Options) (st : RMState) :
    (getResourcePathM env fs "style" appName opts st).2.projectPath
      = st.projectPath := by
  match hl : lookupStr st.pathCache (serializeArgs "style" appName opts) with
  | some v => simp [getResourcePathM, hl]
  | none => simp [getResourcePathM, hl, getResourcePathRaw]

/-- The raw `getProductionStyles` body sets `PROJECT_PATH` to
`options.PROJECT_PATH || PROJECT_PATH` and nothing later changes it. -/
theorem getProductionStylesRaw_projectPath (env : Env) (fs : FS) (appName : String)
    (opts : Options) (st : RMState) :
    (getProductionStylesRaw env fs appName opts st).2.projectPath
      = jsOr opts.PROJECT_PATH st.projectPath := by
  have hpp := getResourcePathM_style_projectPath env fs appName (some opts)
    { st with projectPath := jsOr opts.PROJECT_PATH st.projectPath }
  simp only [getProductionStylesRaw]
  split
  · rename_i e st3 heq
    rw [heq] at hpp
    simpa using hpp
  · rename_i u st3 heq
    rw [heq] at hpp
    simp at hpp
    split <;> simpa using hpp

/-- On a cache miss, `getProductionStyles` leaves `PROJECT_PATH` at
`options.PROJECT_PATH || PROJECT_PATH`. -/
theorem getProductionStylesM_miss_projectPath (env : Env) (fs : FS) (appName : String)
    (opts : Options) (st : RMState)
    (hkey : lookupStr st.gpsCache appName = none) :
    (getProductionStylesM env fs appName opts st).2.projectPath
      = jsOr opts.PROJECT_PATH st.projectPath := by
  have hraw := getProductionStylesRaw_projectPath env fs appName opts st
  match hr : getProductionStylesRaw env fs appName opts st with
  | (.ok v, st2) =>
    rw [hr] at hraw
    simp at hraw
    simp [getProductionStylesM, hkey, hr, hraw]
  | (.error e, st2) =>
    rw [hr] at hraw
    simp at hraw
    simp [getProductionStylesM, hkey, hr, hraw]

/-- C10: with production mode, a non-empty uncached appName and
`options.PROJECT_PATH = p` (truthy), `getHash` overwrites the module-level
`PROJECT_PATH` to `p`; the write persists: a later `getHash` call that
omits `options.PROJECT_PATH` resolves its manifest against `p`, and a
later `getProductionStyles` call with `options.PROJECT_PATH = q` moves
`PROJECT_PATH` to `q` in the same persistent way. -/
theorem projectPath_overwrite_persists (env : Env) (fs : FS)
    (a1 a2 a3 p q : String) (o1 o2 o3 : Options) (st : RMState)
    (m : List (String × String)) (f h : String)
    (hprod : env.NODE_ENV = some "production")
    (ha1 : a1 ≠ "") (hp : o1.PROJECT_PATH = some p) (hpne : p ≠ "")
    (hc1 : lookupStr st.hashCache a1 = none)
    (ha2 : a2 ≠ "") (hne : a2 ≠ a1) (hc2 : lookupStr st.hashCache a2 = none)
    (ho2 : o2.PROJECT_PATH = none)
    (hfs : fs.manifest (assetsMetaPath p (bcpOf env)) = some m)
    (hm : lookupStr m a2 = some f) (hex : extractHash f = some h)
    (hq : o3.PROJECT_PATH = some q) (hqne : q ≠ "")
    (hc3 : lookupStr st.gpsCache a3 = none) :
    (getHashM env fs a1 "bundle" o1 st).2.projectPath = p
    ∧ (getHashM env fs a2 "bundle" o2 (getHashM env fs a1 "bundle" o1 st).2).1
        = .ok (some h)
    ∧ (getProductionStylesM env fs a3 o3 (getHashM env fs a1 "bundle" o1 st).2).2.projectPath
        = q := by
  have hpp1 : (getHashM env fs a1 "bundle" o1 st).2.projectPath = p := by
    rw [getHashM_miss_projectPath env fs a1 "bundle" o1 st hprod ha1 hc1, hp]
    simp [jsOr, hpne]
  refine ⟨hpp1, ?_, ?_⟩
  · have hl2 : lookupStr (getHashM env fs a1 "bundle" o1 st).2.hashCache a2 = none := by
      rw [getHashM_hashCache_other env fs a1 "bundle" o1 st a2 hne]
      exact hc2
    have hf : f ≠ "" := extractHash_some_ne_empty hex
    revert hpp1 hl2
    generalize (getHashM env fs a1 "bundle" o1 st).2 = st1
    intro hpp1 hl2
    simp [getHashM, hl2, getHashRaw, hprod, ha2, ho2, jsOr, hpp1, getHashCore,
      hfs, hm, hf, hex]
  · have hg : lookupStr (getHashM env fs a1 "bundle" o1 st).2.gpsCache a3 = none := by
      rw [getHashM_gpsCache]
      exact hc3
    rw [getProductionStylesM_miss_projectPath env fs a3 o3 _ hg, hq]
    simp [jsOr, hqne]

/-- The options passing the new project path `/newproj`. -/
def c10Opts1 : Options := { PROJECT_PATH := some "/newproj" }

/-- The options passing the project path `/q`. -/
def c10Opts3 : Options := { PROJECT_PATH := some "/q" }

/-- C10 witness: `getHash("app1", "bundle", {PROJECT_PATH: "/newproj"})`
rewrites `PROJECT_PATH` to `/newproj`; the later `getHash("app2",
"bundle")` without options reads `/newproj/build/client/assets.json` and
finds the hash `beef`; the later `getProductionStyles("app3",
{PROJECT_PATH: "/q"})` moves `PROJECT_PATH` to `/q`. -/
theorem projectPath_overwrite_persists_witness :
    (getHashM prodEnv exFS "app1" "bundle" c10Opts1 (initState prodEnv)).2.projectPath
      = "/newproj"
    ∧ (getHashM prodEnv exFS "app2" "bundle" {}
        (getHashM prodEnv exFS "app1" "bundle" c10Opts1 (initState prodEnv)).2).1
      = .ok (some "beef")
    ∧ (getProductionStylesM prodEnv exFS "app3" c10Opts3
        (getHashM prodEnv exFS "app1" "bundle" c10Opts1 (initState prodEnv)).2).2.projectPath
      = "/q" :=
  projectPath_overwrite_persists prodEnv exFS "app1" "app2" "app3" "/newproj" "/q"
    c10Opts1 {} c10Opts3 (initState prodEnv) [("app2", "app2.beef.js")]
    "app2.beef.js" "beef" rfl (by decide) rfl (by decide) rfl (by decide) (by decide)
    rfl rfl rfl rfl rfl rfl (by decide) rfl
